import Mathlib

/-!
Verification of `lsxwriter` (src/src/main.rs): a BG3 mod load-order tool.
The development shallowly embeds the PAK archive reader, the directory
decoder, the module-descriptor data model, the dependency-graph resolution
and the modsettings subtree rewrite, and proves the specification claims
about them.

Bytes are modelled as `Nat` (values < 256 where it matters); byte buffers as
`List Nat`.  Fallible operations return `Option` / `Except`.
-/

namespace Lsxwriter

/-! ## Module descriptors (main.rs lines 244-307) -/

/-- `ModuleDescription` (main.rs lines 250-258).  All fields are the XML
attribute text values; `publish_handle` is optional. -/
structure ModuleDescription where
  folder : String
  md5 : String
  name : String
  publish_handle : Option String
  uuid : String
  version64 : String
deriving DecidableEq, Inhabited

/-- The `PartialEq` impl for `ModuleDescription` (main.rs lines 266-270):
equality is decided solely by the `uuid` field.  (The `Hash` impl, lines
260-264, likewise hashes only `uuid`.) -/
def mdEq (a b : ModuleDescription) : Bool := a.uuid == b.uuid

/-- `Module` (main.rs lines 244-248): one descriptor plus the declared
dependency descriptors (already filtered of base-game dependencies by
`PAKFile::module`). -/
structure Module where
  description : ModuleDescription
  dependencies : List ModuleDescription
deriving DecidableEq, Inhabited

/-! ## Dependency graph

Modelled from the spec: the graph itself lives in the external
`topologic::AcyclicDependencyGraph` crate, which is not part of this
repository; only its callers (main.rs lines 479-495) are.  Spec §4.4
describes the behaviour: `depend_on` accumulates edges, node identity is
UUID with the first-inserted descriptor retained, and resolution is a
layered Kahn's-algorithm over the nodes that were inserted as dependents,
with ties inside a layer broken by first-discovered order; a step in which
no layer can be formed reports the remaining unresolved set as a cycle.
The base-game node, which is only ever the target of `depend_on` edges
and never a dependent, is not part of the emitted sequence. -/

/-- Edge list of the dependency graph.  An edge `(a, b)` records the call
`depend_on(a, b)`: `a` depends on `b`, so `b` must load before `a`. -/
structure DepGraph where
  edges : List (ModuleDescription × ModuleDescription)
deriving DecidableEq, Inhabited

/-- Modelled from the spec: `depend_on` (spec §4.4) records one dependency
edge, in insertion order. -/
def DepGraph.depend_on (g : DepGraph) (a b : ModuleDescription) : DepGraph :=
  ⟨g.edges ++ [(a, b)]⟩

/-- One iteration of the loop in `main` (main.rs lines 480-489): the module
first depends on the base-game module, then on each declared dependency in
order. -/
def DepGraph.addModule (g : DepGraph) (base : ModuleDescription) (m : Module) : DepGraph :=
  m.dependencies.foldl (fun g' d => g'.depend_on m.description d)
    (g.depend_on m.description base)

/-- The whole accumulation loop of `main` (main.rs lines 479-489) starting
from an empty graph. -/
def buildGraph (base : ModuleDescription) (mods : List Module) : DepGraph :=
  mods.foldl (fun g m => g.addModule base m) ⟨[]⟩

/-- Modelled from the spec (§7): resolution fails with `CycleDetected`
identifying the remaining unresolved node set. -/
inductive ResolveError where
  | CycleDetected (nodes : List ModuleDescription)
deriving DecidableEq

/-- Insert a dependent node into the key list unless a node with the same
UUID is already present (first-inserted descriptor wins). -/
def addKey (ks : List ModuleDescription) (m : ModuleDescription) : List ModuleDescription :=
  if ks.any (fun k => mdEq k m) then ks else ks ++ [m]

/-- The graph's node set in first-discovered order: every descriptor that
occurs as a dependent of some edge, de-duplicated by UUID keeping the
first-inserted instance. -/
def keysOf (edges : List (ModuleDescription × ModuleDescription)) :
    List ModuleDescription :=
  edges.foldl (fun ks e => addKey ks e.1) []

/-- The dependencies declared for node `m`: targets of every edge whose
dependent has `m`'s UUID. -/
def depsOf (edges : List (ModuleDescription × ModuleDescription))
    (m : ModuleDescription) : List ModuleDescription :=
  (edges.filter (fun e => mdEq e.1 m)).map (fun e => e.2)

/-- A node is ready to be emitted when none of its dependencies is still
among the remaining unemitted nodes (dependencies that were never inserted
as dependents, such as the base-game node, are vacuously satisfied). -/
def ready (edges : List (ModuleDescription × ModuleDescription))
    (remaining : List ModuleDescription) (m : ModuleDescription) : Bool :=
  (depsOf edges m).all (fun d => !(remaining.any (fun r => mdEq r d)))

/-- Modelled from the spec (§4.4): layered Kahn's-algorithm.  Repeatedly
emit the layer of all ready nodes, in first-discovered order; if no node is
ready while some remain, fail with `CycleDetected` on the remaining set.
`fuel` bounds the number of rounds; `resolve` supplies enough fuel that it
never runs out on a layer-making run. -/
def resolveAux (edges : List (ModuleDescription × ModuleDescription)) :
    Nat → List ModuleDescription → Except ResolveError (List ModuleDescription)
  | _, [] => .ok []
  | 0, remaining => .error (.CycleDetected remaining)
  | fuel + 1, remaining =>
    let layer := remaining.filter (ready edges remaining)
    if layer.isEmpty then .error (.CycleDetected remaining)
    else
      match resolveAux edges fuel (remaining.filter (fun m => !(ready edges remaining m))) with
      | .ok rest => .ok (layer ++ rest)
      | .error e => .error e

/-- Modelled from the spec (§4.4): `resolve` runs the layered sort over the
dependent-node set in first-discovered order. -/
def DepGraph.resolve (g : DepGraph) : Except ResolveError (List ModuleDescription) :=
  resolveAux g.edges (keysOf g.edges).length (keysOf g.edges)

/-! ## Rendering back into the modsettings document (main.rs lines 309-416
and 474-497) -/

/-- One `<attribute id=... type=... value=.../>` child element of a rendered
module node. -/
structure XmlAttribute where
  id : String
  type : String
  value : String
deriving DecidableEq, Inhabited

/-- A child element of the mod-list `<children>` subtree: its element name,
its `id` attribute and its attribute children. -/
structure XmlElem where
  name : String
  id : String
  attrs : List XmlAttribute
deriving DecidableEq, Inhabited

/-- `ModuleDescription::as_xml` (main.rs lines 309-416): a `node` element
with id `ModuleShortDesc` and six attribute children appended in the fixed
order Folder, MD5, Name, PublishHandle, UUID, Version64; an absent
publish handle is rendered as `"0"` (lines 361-365). -/
def ModuleDescription.as_xml (d : ModuleDescription) : XmlElem :=
  { name := "node"
    id := "ModuleShortDesc"
    attrs :=
      [⟨"Folder", "LSString", d.folder⟩,
       ⟨"MD5", "LSString", d.md5⟩,
       ⟨"Name", "LSString", d.name⟩,
       ⟨"PublishHandle", "uint64", d.publish_handle.getD "0"⟩,
       ⟨"UUID", "guid", d.uuid⟩,
       ⟨"Version64", "int64", d.version64⟩] }

/-- The subtree rewrite of `main` (main.rs lines 474-497): clone the
mod-list children, remove every `node` element
(`remove_elements_by_name("node")`, line 477), then append one rendered
fragment per descriptor of the resolved sequence, in order. -/
def applyModlist (modlist : List XmlElem) (order : List ModuleDescription) :
    List XmlElem :=
  (modlist.filter (fun e => !(e.name == "node"))) ++ order.map (fun d => d.as_xml)

/-! ## PAK archive reader (main.rs lines 58-242) -/

/-- `size_of::<PAKHeader>()`: 4 + 4 + 8 + 4 + 1 + 1 + 16 + 2 bytes of the
`repr(C, packed)` struct (main.rs lines 193-204). -/
def headerSize : Nat := 40

/-- `size_of::<PAKFileEntry>()`: 256 + 4 + 2 + 1 + 1 + 4 + 4 bytes of the
`repr(C, packed)` struct (main.rs lines 206-216). -/
def entrySize : Nat := 272

/-- The bytes of the literal magic `b"LSPK"` (main.rs line 79). -/
def lspkMagic : List Nat := [76, 83, 80, 75]

/-- `MemoryMappedFile::as_slice(offset, len)`: the byte range, or an I/O
error when out of bounds. -/
def readBytes (file : List Nat) (off len : Nat) : Option (List Nat) :=
  if off + len ≤ file.length then some ((file.drop off).take len) else none

/-- Little-endian 16-bit read of the first two bytes. -/
def decodeU16LE (b : List Nat) : Nat :=
  b.getD 0 0 + b.getD 1 0 * 256

/-- Little-endian 32-bit read of the first four bytes
(`u32::from_le_bytes`). -/
def decodeU32LE (b : List Nat) : Nat :=
  b.getD 0 0 + b.getD 1 0 * 256 + b.getD 2 0 * 65536 + b.getD 3 0 * 16777216

/-- Little-endian 64-bit read of the first eight bytes. -/
def decodeU64LE (b : List Nat) : Nat :=
  decodeU32LE b + decodeU32LE (b.drop 4) * 4294967296

/-- `PAKHeader` (main.rs lines 193-204). -/
structure PAKHeader where
  magic : List Nat
  version : Nat
  file_list_offset : Nat
  file_list_size : Nat
  flags : Nat
  priority : Nat
  md5 : List Nat
  num_parts : Nat
deriving DecidableEq, Inhabited

/-- Decoding the packed header from its 40 bytes, at the fixed field
offsets of the `repr(C, packed)` layout. -/
def decodeHeader (b : List Nat) : PAKHeader :=
  { magic := b.take 4
    version := decodeU32LE (b.drop 4)
    file_list_offset := decodeU64LE (b.drop 8)
    file_list_size := decodeU32LE (b.drop 16)
    flags := b.getD 20 0
    priority := b.getD 21 0
    md5 := (b.drop 22).take 16
    num_parts := decodeU16LE (b.drop 38) }

/-- `PAKFileEntry` (main.rs lines 206-216). -/
structure PAKFileEntry where
  name : List Nat
  offset_in_file_1 : Nat
  offset_in_file_2 : Nat
  archive_part : Nat
  flags : Nat
  size_on_disk : Nat
  uncompressed_size : Nat
deriving DecidableEq, Inhabited

/-- Decoding one packed directory entry from its 272 bytes. -/
def decodeEntry (b : List Nat) : PAKFileEntry :=
  { name := b.take 256
    offset_in_file_1 := decodeU32LE (b.drop 256)
    offset_in_file_2 := decodeU16LE (b.drop 260)
    archive_part := b.getD 262 0
    flags := b.getD 263 0
    size_on_disk := decodeU32LE (b.drop 264)
    uncompressed_size := decodeU32LE (b.drop 268) }

/-- The byte selection of `PAKFileEntry::name` (main.rs lines 219-231):
take up to the position of the first zero byte, or up to the buffer length
minus one when there is none.  (The Rust code then decodes these bytes as
UTF-8 with `String::from_utf8`.) -/
def PAKFileEntry.nameBytes (e : PAKFileEntry) : List Nat :=
  let size := match e.name.findIdx? (fun c => c == 0) with
    | some terminator => terminator
    | none => e.name.length - 1
  e.name.take size

/-- `PAKFileEntry::offset` (main.rs lines 233-235):
`offset_in_file_1 as u64 | ((offset_in_file_2 as u64) << 32)`.  With
`offset_in_file_1 < 2^32` and `offset_in_file_2 < 2^16` the u64 arithmetic
cannot wrap, so plain `Nat` is faithful. -/
def PAKFileEntry.offset (e : PAKFileEntry) : Nat :=
  e.offset_in_file_1 ||| (e.offset_in_file_2 <<< 32)

/-- `PAKError` (main.rs lines 37-41); `BadMagic` carries the observed magic
bytes. -/
inductive PAKError where
  | BadMagic (observed : List Nat)
  | NoMetadata
deriving DecidableEq

/-- How `PAKFile::open` can fail: a propagated slice error (`?`), a
returned `PAKError`, or a panic from `.unwrap()` / `assert_eq!`. -/
inductive OpenError where
  | ioError
  | format (e : PAKError)
  | abort
deriving DecidableEq

/-- The directory-buffer check and reinterpretation of `PAKFile::open`
(main.rs lines 102-110): `assert_eq!(file_count, data.len() / entrySize)`,
then read `file_count` consecutive 272-byte records.  `none` models the
assertion panic. -/
def fileListDecode (file_count : Nat) (data : List Nat) :
    Option (List PAKFileEntry) :=
  if file_count = data.length / entrySize then
    some ((List.range file_count).map
      (fun i => decodeEntry ((data.drop (entrySize * i)).take entrySize)))
  else none

/-- `PAKFile::open` (main.rs lines 74-118) up to the decoded file list.
`decompress` stands for `lz4_flex::decompress(slice, expected_size)`; it is
a parameter because the LZ4 codec is an external crate. -/
def openPAK (file : List Nat) (decompress : List Nat → Nat → Option (List Nat)) :
    Except OpenError (PAKHeader × List PAKFileEntry) :=
  match readBytes file 0 headerSize with
  | none => .error .ioError
  | some hb =>
    let header := decodeHeader hb
    if header.magic = lspkMagic then
      match readBytes file header.file_list_offset 8 with
      | none => .error .abort
      | some info =>
        let file_count := decodeU32LE (info.take 4)
        let compressed_size := decodeU32LE (info.drop 4)
        match readBytes file (header.file_list_offset + 8) compressed_size with
        | none => .error .abort
        | some slice =>
          match decompress slice (entrySize * file_count) with
          | none => .error .abort
          | some data =>
            match fileListDecode file_count data with
            | none => .error .abort
            | some entries => .ok (header, entries)
    else .error (.format (.BadMagic header.magic))

deriving instance DecidableEq for Except

/-! ## Theorems -/

theorem filter_node_applyModlist (modlist : List XmlElem) (order : List ModuleDescription) :
    (applyModlist modlist order).filter (fun e => e.name == "node") =
      order.map (fun x => x.as_xml) := by
  unfold applyModlist
  rw [List.filter_append, List.filter_filter]
  simp [ModuleDescription.as_xml]

/-- C9: the reconstructed payload offset `low | (high << 32)` equals
`low + high * 2^32` for all representable field values, and fits in 48
bits. -/
theorem entry_offset_reconstruction (e : PAKFileEntry)
    (h1 : e.offset_in_file_1 < 2 ^ 32) (h2 : e.offset_in_file_2 < 2 ^ 16) :
    e.offset = e.offset_in_file_1 + e.offset_in_file_2 * 2 ^ 32 ∧
      e.offset < 2 ^ 48 := by
  have key : e.offset = e.offset_in_file_1 + e.offset_in_file_2 * 2 ^ 32 := by
    unfold PAKFileEntry.offset
    rw [Nat.shiftLeft_eq, Nat.lor_comm, Nat.mul_comm, ← Nat.mul_add_lt_is_or h1]
    ring
  refine ⟨key, ?_⟩
  rw [key]
  have : e.offset_in_file_2 * 2 ^ 32 ≤ (2 ^ 16 - 1) * 2 ^ 32 :=
    Nat.mul_le_mul_right _ (by omega)
  calc e.offset_in_file_1 + e.offset_in_file_2 * 2 ^ 32
      ≤ e.offset_in_file_1 + (2 ^ 16 - 1) * 2 ^ 32 := by omega
    _ < 2 ^ 48 := by omega

/-- C9 witness: high-part saturation `(low, high) = (0xFFFFFFFF, 0xFFFF)`. -/
theorem entry_offset_reconstruction_witness :
    (PAKFileEntry.mk [] 4294967295 65535 0 0 0 0).offset =
        4294967295 + 65535 * 2 ^ 32 ∧
      (PAKFileEntry.mk [] 4294967295 65535 0 0 0 0).offset < 2 ^ 48 :=
  entry_offset_reconstruction (PAKFileEntry.mk [] 4294967295 65535 0 0 0 0)
    (by decide) (by decide)

/-- C10: the rendered fragment is a `node` element with id
`ModuleShortDesc` holding exactly six attribute children in the fixed
order Folder, MD5, Name, PublishHandle, UUID, Version64. -/
theorem as_xml_shape (d : ModuleDescription) :
    (d.as_xml).name = "node" ∧ (d.as_xml).id = "ModuleShortDesc" ∧
      (d.as_xml).attrs.length = 6 ∧
      (d.as_xml).attrs.map (fun a => a.id) =
        ["Folder", "MD5", "Name", "PublishHandle", "UUID", "Version64"] :=
  ⟨rfl, rfl, rfl, rfl⟩

/-- C5: applying the ordered sequence to the mod-list subtree leaves
exactly the rendered fragments as its `node` children (all stale entries
removed, one fragment per descriptor, in order, appended after the
non-`node` children), each fragment carrying the type tags
LSString/LSString/LSString/uint64/guid/int64, and an absent publish
handle rendered as `"0"`. -/
theorem applyModlist_spec (modlist : List XmlElem) (order : List ModuleDescription)
    (d : ModuleDescription) :
    ((applyModlist modlist order).filter (fun e => e.name == "node") =
        order.map (fun x => x.as_xml)) ∧
      ((applyModlist modlist order).drop
          ((modlist.filter (fun e => !(e.name == "node"))).length) =
        order.map (fun x => x.as_xml)) ∧
      ((d.as_xml).attrs.map (fun a => a.type) =
        ["LSString", "LSString", "LSString", "uint64", "guid", "int64"]) ∧
      (({ d with publish_handle := none } : ModuleDescription).as_xml).attrs.map
          (fun a => a.value) =
        [d.folder, d.md5, d.name, "0", d.uuid, d.version64] := by
  refine ⟨filter_node_applyModlist modlist order, ?_, rfl, rfl⟩
  unfold applyModlist
  rw [List.drop_left]

/-- C7: opening an archive whose header is readable fails with `BadMagic`
carrying the observed first four bytes if and only if those bytes differ
from the literal signature `LSPK`; with a matching signature no `BadMagic`
error is produced. -/
theorem openPAK_badmagic (file : List Nat) (decompress : List Nat → Nat → Option (List Nat))
    (h : headerSize ≤ file.length) :
    (openPAK file decompress = .error (.format (.BadMagic (file.take 4))) ↔
        file.take 4 ≠ lspkMagic) ∧
      ∀ obs, openPAK file decompress = .error (.format (.BadMagic obs)) →
        obs = file.take 4 := by
  have hrb : readBytes file 0 headerSize = some (file.take headerSize) := by
    simp [readBytes, h]
  have hmag : (decodeHeader (file.take headerSize)).magic = file.take 4 := by
    simp [decodeHeader, List.take_take, headerSize]
  unfold openPAK
  rw [hrb]
  simp only [hmag]
  by_cases hm : file.take 4 = lspkMagic
  · rw [if_pos hm]
    refine ⟨⟨?_, fun hne => absurd hm hne⟩, ?_⟩
    · intro hres
      exfalso
      revert hres
      repeat' split
      all_goals simp
    · intro obs hres
      exfalso
      revert hres
      repeat' split
      all_goals simp
  · rw [if_neg hm]
    refine ⟨⟨fun _ => hm, fun _ => rfl⟩, ?_⟩
    intro obs hres
    simp only [Except.error.injEq, OpenError.format.injEq, PAKError.BadMagic.injEq] at hres
    exact hres.symm

/-- C7 witness: a 40-byte all-zero file is rejected with `BadMagic` on its
first four bytes. -/
theorem openPAK_badmagic_witness :
    openPAK (List.replicate 40 0) (fun _ _ => none) =
      .error (.format (.BadMagic ((List.replicate 40 (0 : Nat)).take 4))) :=
  (openPAK_badmagic (List.replicate 40 0) (fun _ _ => none) (by decide)).1.mpr
    (by decide)

/-- C6 (amended): the directory buffer check accepts exactly when the entry
count equals the decompressed length divided by the 272-byte record size
with integer division; when the length is exactly `entrySize * file_count`
it yields exactly `file_count` entries. -/
theorem fileListDecode_spec (file_count : Nat) (data : List Nat) :
    (fileListDecode file_count data = none ↔ file_count ≠ data.length / entrySize) ∧
      (data.length = entrySize * file_count →
        ∃ es, fileListDecode file_count data = some es ∧ es.length = file_count) := by
  constructor
  · unfold fileListDecode
    split <;> simp_all
  · intro hlen
    have hdiv : file_count = data.length / entrySize := by
      rw [hlen, Nat.mul_div_cancel_left _ (by norm_num [entrySize] : 0 < entrySize)]
    unfold fileListDecode
    rw [if_pos hdiv]
    exact ⟨_, rfl, by simp⟩

set_option maxRecDepth 8000 in
/-- C6 counterexample: a decompressed buffer of 273 bytes is not an exact
multiple of the 272-byte record size for entry count 1, yet decoding
succeeds, because the code checks `file_count = len / 272` with integer
division (main.rs lines 102-105) rather than an exact multiple. -/
theorem fileListDecode_tolerates_slack :
    (fileListDecode 1 (List.replicate 273 0)).isSome = true ∧
      (List.replicate (273 : Nat) (0 : Nat)).length ≠ entrySize * 1 :=
  ⟨by decide, by decide⟩

set_option maxRecDepth 8000 in
/-- C6 witness: 544 bytes with entry count 3 is rejected; with entry count
2 it yields exactly two entries. -/
theorem fileListDecode_spec_witness :
    fileListDecode 3 (List.replicate 544 0) = none ∧
      ∃ es, fileListDecode 2 (List.replicate 544 0) = some es ∧ es.length = 2 :=
  ⟨(fileListDecode_spec 3 (List.replicate 544 0)).1.mpr (by decide),
    (fileListDecode_spec 2 (List.replicate 544 0)).2 (by decide)⟩

theorem take_findIdx?_eq_takeWhile (l : List Nat) (i : Nat)
    (h : l.findIdx? (fun c => c == 0) = some i) :
    l.take i = l.takeWhile (fun c => !(c == 0)) := by
  induction l generalizing i with
  | nil => simp at h
  | cons a t ih =>
    rw [List.findIdx?_cons] at h
    by_cases ha : (a == 0) = true
    · rw [if_pos ha] at h
      injection h with h
      subst h
      simp [List.takeWhile_cons, ha]
    · rw [if_neg ha, List.findIdx?_succ] at h
      cases ht : t.findIdx? (fun c => c == 0) with
      | none => rw [ht] at h; simp at h
      | some j =>
        rw [ht] at h
        simp only [Option.map_some', Option.some.injEq] at h
        subst h
        have ha' : (a == 0) = false := by simpa using ha
        simp [List.take_succ_cons, List.takeWhile_cons, ha', ih j ht]

/-- C8: for a 256-byte name buffer, the selected name bytes are the bytes
before the first zero byte (the longest zero-free leading run) when a zero
is present, and the first 255 bytes (buffer length minus one) when no zero
is present.  The Rust code then decodes exactly these bytes as UTF-8. -/
theorem entry_name_selection (e : PAKFileEntry) (h : e.name.length = 256) :
    (0 ∈ e.name → e.nameBytes = e.name.takeWhile (fun c => !(c == 0))) ∧
      (0 ∉ e.name → e.nameBytes = e.name.take 255) := by
  constructor
  · intro hz
    cases hf : e.name.findIdx? (fun c => c == 0) with
    | none =>
      exfalso
      rw [List.findIdx?_eq_none_iff] at hf
      have := hf 0 hz
      simp at this
    | some i =>
      simp only [PAKFileEntry.nameBytes, hf]
      exact take_findIdx?_eq_takeWhile e.name i hf
  · intro hz
    have hf : e.name.findIdx? (fun c => c == 0) = none := by
      rw [List.findIdx?_eq_none_iff]
      intro x hx
      simp only [beq_eq_false_iff_ne, ne_eq]
      intro h0
      exact hz (h0 ▸ hx)
    simp only [PAKFileEntry.nameBytes, hf, h]

set_option maxRecDepth 8000 in
/-- C8 witness: a zero-terminated buffer keeps the bytes before the zero;
an all-65 buffer with no zero keeps its first 255 bytes. -/
theorem entry_name_selection_witness :
    (PAKFileEntry.mk ([77, 111, 0] ++ List.replicate 253 7) 0 0 0 0 0 0).nameBytes =
        (([77, 111, 0] ++ List.replicate 253 (7 : Nat)).takeWhile (fun c => !(c == 0))) ∧
      (PAKFileEntry.mk (List.replicate 256 65) 0 0 0 0 0 0).nameBytes =
        (List.replicate 256 (65 : Nat)).take 255 :=
  ⟨(entry_name_selection _ (by decide)).1 (by decide),
    (entry_name_selection _ (by decide)).2 (by decide)⟩

theorem mem_addKey {ks : List ModuleDescription} {m x : ModuleDescription}
    (h : x ∈ addKey ks m) : x ∈ ks ∨ x = m := by
  unfold addKey at h
  split at h
  · exact Or.inl h
  · rcases List.mem_append.mp h with h' | h'
    · exact Or.inl h'
    · exact Or.inr (List.mem_singleton.mp h')

theorem mem_foldl_addKey :
    ∀ (l : List (ModuleDescription × ModuleDescription)) (ks : List ModuleDescription)
      (x : ModuleDescription),
      x ∈ l.foldl (fun ks e => addKey ks e.1) ks → x ∈ ks ∨ x ∈ l.map (fun e => e.1) := by
  intro l
  induction l with
  | nil => intro ks x h; exact Or.inl h
  | cons e t ih =>
    intro ks x h
    rw [List.foldl_cons] at h
    rcases ih _ x h with h' | h'
    · rcases mem_addKey h' with h'' | h''
      · exact Or.inl h''
      · right; simp [h'']
    · right; simp [h']

theorem mem_keysOf {edges : List (ModuleDescription × ModuleDescription)}
    {x : ModuleDescription} (h : x ∈ keysOf edges) : x ∈ edges.map (fun e => e.1) := by
  rcases mem_foldl_addKey edges [] x h with h' | h'
  · cases h'
  · exact h'

theorem resolveAux_subset (edges : List (ModuleDescription × ModuleDescription)) :
    ∀ (fuel : Nat) (remaining order : List ModuleDescription),
      resolveAux edges fuel remaining = .ok order → ∀ d ∈ order, d ∈ remaining := by
  intro fuel
  induction fuel with
  | zero =>
    intro remaining order h d hd
    cases remaining with
    | nil =>
      simp only [resolveAux] at h
      simp only [Except.ok.injEq] at h
      subst h
      cases hd
    | cons a t =>
      simp only [resolveAux] at h
      exact Except.noConfusion h
  | succ n ih =>
    intro remaining order h d hd
    cases remaining with
    | nil =>
      simp only [resolveAux] at h
      simp only [Except.ok.injEq] at h
      subst h
      cases hd
    | cons a t =>
      simp only [resolveAux] at h
      split at h
      · exact Except.noConfusion h
      · split at h
        · rename_i rest heq
          simp only [Except.ok.injEq] at h
          subst h
          rcases List.mem_append.mp hd with h' | h'
          · exact List.mem_of_mem_filter h'
          · exact List.mem_of_mem_filter (ih _ rest heq d h')
        · exact Except.noConfusion h

theorem ready_of_self_dep {edges : List (ModuleDescription × ModuleDescription)}
    {m : ModuleDescription} {remaining : List ModuleDescription}
    (hdep : ∃ d ∈ depsOf edges m, mdEq m d = true) (hm : m ∈ remaining) :
    ready edges remaining m = false := by
  obtain ⟨d, hd, hmd⟩ := hdep
  unfold ready
  refine List.all_eq_false.mpr ⟨d, hd, ?_⟩
  simp only [Bool.not_eq_false, Bool.not_eq_true']
  exact List.any_eq_true.mpr ⟨m, hm, hmd⟩

theorem resolveAux_self_dep_ne_ok {edges : List (ModuleDescription × ModuleDescription)}
    {m : ModuleDescription} (hdep : ∃ d ∈ depsOf edges m, mdEq m d = true) :
    ∀ (fuel : Nat) (remaining order : List ModuleDescription), m ∈ remaining →
      resolveAux edges fuel remaining ≠ .ok order := by
  intro fuel
  induction fuel with
  | zero =>
    intro remaining order hm h
    cases remaining with
    | nil => cases hm
    | cons a t =>
      simp only [resolveAux] at h
      exact Except.noConfusion h
  | succ n ih =>
    intro remaining order hm h
    cases remaining with
    | nil => cases hm
    | cons a t =>
      simp only [resolveAux] at h
      split at h
      · exact Except.noConfusion h
      · split at h
        · rename_i rest heq
          refine ih _ rest ?_ heq
          refine List.mem_filter.mpr ⟨hm, ?_⟩
          simp [ready_of_self_dep hdep hm]
        · exact Except.noConfusion h

theorem foldl_depend_on_edges (a : ModuleDescription) :
    ∀ (deps : List ModuleDescription) (g : DepGraph),
      (deps.foldl (fun g' d => g'.depend_on a d) g).edges =
        g.edges ++ deps.map (fun d => (a, d)) := by
  intro deps
  induction deps with
  | nil => intro g; simp
  | cons d t ih =>
    intro g
    rw [List.foldl_cons, ih]
    simp [DepGraph.depend_on]

theorem addModule_edges (g : DepGraph) (base : ModuleDescription) (m : Module) :
    (g.addModule base m).edges =
      g.edges ++ (m.description, base) :: m.dependencies.map (fun d => (m.description, d)) := by
  unfold DepGraph.addModule
  rw [foldl_depend_on_edges]
  simp [DepGraph.depend_on]

theorem foldl_addModule_mono (base : ModuleDescription) :
    ∀ (mods : List Module) (g : DepGraph) (e : ModuleDescription × ModuleDescription),
      e ∈ g.edges → e ∈ (mods.foldl (fun g m => g.addModule base m) g).edges := by
  intro mods
  induction mods with
  | nil => intro g e h; exact h
  | cons m t ih =>
    intro g e h
    rw [List.foldl_cons]
    refine ih _ e ?_
    rw [addModule_edges]
    exact List.mem_append.mpr (Or.inl h)

theorem buildGraph_edges_cases (base : ModuleDescription) :
    ∀ (mods : List Module) (g : DepGraph) (e : ModuleDescription × ModuleDescription),
      e ∈ (mods.foldl (fun g m => g.addModule base m) g).edges →
      e ∈ g.edges ∨ ∃ m ∈ mods, e.1 = m.description := by
  intro mods
  induction mods with
  | nil => intro g e h; exact Or.inl h
  | cons m t ih =>
    intro g e h
    rw [List.foldl_cons] at h
    rcases ih _ e h with h' | h'
    · rw [addModule_edges] at h'
      rcases List.mem_append.mp h' with h'' | h''
      · exact Or.inl h''
      · right
        refine ⟨m, List.mem_cons_self m t, ?_⟩
        rcases List.mem_cons.mp h'' with h3 | h3
        · rw [h3]
        · obtain ⟨d, _, h4⟩ := List.mem_map.mp h3
          rw [← h4]
    · obtain ⟨m', hm', h''⟩ := h'
      exact Or.inr ⟨m', List.mem_cons_of_mem m hm', h''⟩

theorem buildGraph_base_edge (base : ModuleDescription) :
    ∀ (mods : List Module) (g : DepGraph) (m : Module), m ∈ mods →
      (m.description, base) ∈ (mods.foldl (fun g m => g.addModule base m) g).edges := by
  intro mods
  induction mods with
  | nil => intro g m h; cases h
  | cons m0 t ih =>
    intro g m h
    rw [List.foldl_cons]
    rcases List.mem_cons.mp h with h' | h'
    · subst h'
      refine foldl_addModule_mono base t _ _ ?_
      rw [addModule_edges]
      exact List.mem_append.mpr (Or.inr (List.mem_cons_self _ _))
    · exact ih _ m h'

/-- C1: whatever set of modules was added, a successfully resolved order
never contains the base-game node: every emitted descriptor has a UUID
different from the base module's UUID.  (A module whose UUID collides with
the base would give itself a self-dependency through its mandatory
base-game edge and make resolution fail instead.) -/
theorem resolve_excludes_base (base : ModuleDescription) (mods : List Module)
    (order : List ModuleDescription)
    (h : (buildGraph base mods).resolve = .ok order) :
    ∀ d ∈ order, d.uuid ≠ base.uuid := by
  intro d hd hbad
  have hkeys : d ∈ keysOf (buildGraph base mods).edges :=
    resolveAux_subset _ _ _ _ h d hd
  obtain ⟨e, he, he1⟩ := List.mem_map.mp (mem_keysOf hkeys)
  have he' : e ∈ (mods.foldl (fun g m => g.addModule base m) (⟨[]⟩ : DepGraph)).edges := he
  rcases buildGraph_edges_cases base mods ⟨[]⟩ e he' with h' | h'
  · cases h'
  · obtain ⟨m, hm, hme⟩ := h'
    have hmd : m.description = d := by rw [← hme, he1]
    have hedge : (m.description, base) ∈ (buildGraph base mods).edges :=
      buildGraph_base_edge base mods ⟨[]⟩ m hm
    have hbase : base ∈ depsOf (buildGraph base mods).edges d := by
      unfold depsOf
      refine List.mem_map.mpr ⟨(m.description, base), List.mem_filter.mpr ⟨hedge, ?_⟩, rfl⟩
      simp [mdEq, hmd]
    have hself : mdEq d base = true := by simp [mdEq, hbad]
    exact resolveAux_self_dep_ne_ok ⟨base, hbase, hself⟩ _ _ order hkeys h

/-- C1 witness: one module resolving to a singleton order whose element
differs from the base UUID. -/
theorem resolve_excludes_base_witness :
    (⟨"A", "mA", "ModA", none, "uuid-a", "1"⟩ : ModuleDescription).uuid ≠
      (⟨"Gustav", "m", "GustavDev", none, "uuid-base", "1"⟩ : ModuleDescription).uuid :=
  resolve_excludes_base ⟨"Gustav", "m", "GustavDev", none, "uuid-base", "1"⟩
    [⟨⟨"A", "mA", "ModA", none, "uuid-a", "1"⟩, []⟩]
    [⟨"A", "mA", "ModA", none, "uuid-a", "1"⟩] (by decide)
    ⟨"A", "mA", "ModA", none, "uuid-a", "1"⟩ (by decide)

/-- C2: with module A depending on B and module B depending on A (distinct
UUIDs), resolution fails with `CycleDetected` identifying the stuck nodes
`[A, B]` — both participate in the cycle — instead of producing an order. -/
theorem resolve_cycle_detected (A B base : ModuleDescription)
    (hAB : A.uuid ≠ B.uuid) :
    (buildGraph base [⟨A, [B]⟩, ⟨B, [A]⟩]).resolve =
      .error (.CycleDetected [A, B]) := by
  have hBA : B.uuid ≠ A.uuid := Ne.symm hAB
  simp [buildGraph, DepGraph.addModule, DepGraph.depend_on, DepGraph.resolve,
    keysOf, addKey, depsOf, ready, mdEq, resolveAux, hAB, hBA]

/-- C2 witness. -/
theorem resolve_cycle_detected_witness :
    (buildGraph ⟨"G", "m", "GustavDev", none, "uuid-base", "1"⟩
        [⟨⟨"A", "mA", "ModA", none, "uuid-a", "1"⟩,
            [⟨"B", "mB", "ModB", none, "uuid-b", "1"⟩]⟩,
          ⟨⟨"B", "mB", "ModB", none, "uuid-b", "1"⟩,
            [⟨"A", "mA", "ModA", none, "uuid-a", "1"⟩]⟩]).resolve =
      .error (.CycleDetected [⟨"A", "mA", "ModA", none, "uuid-a", "1"⟩,
        ⟨"B", "mB", "ModB", none, "uuid-b", "1"⟩]) :=
  resolve_cycle_detected _ _ _ (by decide)

/-- C3: with A depending on B and B depending only on the base (pairwise
distinct UUIDs), resolution yields `[B, A]` regardless of the insertion
order of A and B; and for two independent modules the tie inside the layer
is broken by first-discovered (insertion) order. -/
theorem resolve_deterministic_order (A B base : ModuleDescription)
    (hAB : A.uuid ≠ B.uuid) (hAb : A.uuid ≠ base.uuid) (hBb : B.uuid ≠ base.uuid) :
    (buildGraph base [⟨A, [B]⟩, ⟨B, []⟩]).resolve = .ok [B, A] ∧
      (buildGraph base [⟨B, []⟩, ⟨A, [B]⟩]).resolve = .ok [B, A] ∧
      (buildGraph base [⟨A, []⟩, ⟨B, []⟩]).resolve = .ok [A, B] := by
  have hBA : B.uuid ≠ A.uuid := Ne.symm hAB
  refine ⟨?_, ?_, ?_⟩ <;>
    simp [buildGraph, DepGraph.addModule, DepGraph.depend_on, DepGraph.resolve,
      keysOf, addKey, depsOf, ready, mdEq, resolveAux, hAB, hBA, hAb, hBb]

/-- C3 witness. -/
theorem resolve_deterministic_order_witness :
    (buildGraph ⟨"G", "m", "GustavDev", none, "uuid-base", "1"⟩
        [⟨⟨"A", "mA", "ModA", none, "uuid-a", "1"⟩,
            [⟨"B", "mB", "ModB", none, "uuid-b", "1"⟩]⟩,
          ⟨⟨"B", "mB", "ModB", none, "uuid-b", "1"⟩, []⟩]).resolve =
        .ok [⟨"B", "mB", "ModB", none, "uuid-b", "1"⟩,
          ⟨"A", "mA", "ModA", none, "uuid-a", "1"⟩] ∧
      (buildGraph ⟨"G", "m", "GustavDev", none, "uuid-base", "1"⟩
        [⟨⟨"B", "mB", "ModB", none, "uuid-b", "1"⟩, []⟩,
          ⟨⟨"A", "mA", "ModA", none, "uuid-a", "1"⟩,
            [⟨"B", "mB", "ModB", none, "uuid-b", "1"⟩]⟩]).resolve =
        .ok [⟨"B", "mB", "ModB", none, "uuid-b", "1"⟩,
          ⟨"A", "mA", "ModA", none, "uuid-a", "1"⟩] ∧
      (buildGraph ⟨"G", "m", "GustavDev", none, "uuid-base", "1"⟩
        [⟨⟨"A", "mA", "ModA", none, "uuid-a", "1"⟩, []⟩,
          ⟨⟨"B", "mB", "ModB", none, "uuid-b", "1"⟩, []⟩]).resolve =
        .ok [⟨"A", "mA", "ModA", none, "uuid-a", "1"⟩,
          ⟨"B", "mB", "ModB", none, "uuid-b", "1"⟩] :=
  resolve_deterministic_order _ _ _ (by decide) (by decide) (by decide)

/-- C4: two `ModuleDescription`s are equal (`PartialEq`) exactly when their
UUIDs are equal, regardless of every other field; and when two descriptors
with the same UUID are inserted from distinct archives, they collapse into
a single node whose attribute values are those of the first-inserted
descriptor `d1` (the emitted node is `d1` itself, never `d2`). -/
theorem uuid_identity_first_wins (a b d1 d2 base : ModuleDescription)
    (h21 : d2.uuid = d1.uuid) (h1b : d1.uuid ≠ base.uuid) :
    (mdEq a b = true ↔ a.uuid = b.uuid) ∧
      (buildGraph base [⟨d1, []⟩, ⟨d2, []⟩]).resolve = .ok [d1] := by
  constructor
  · simp [mdEq]
  · simp [buildGraph, DepGraph.addModule, DepGraph.depend_on, DepGraph.resolve,
      keysOf, addKey, depsOf, ready, mdEq, resolveAux, h21, h1b]

/-- C4 witness: descriptors differing in every field except UUID collapse
to the first-inserted one. -/
theorem uuid_identity_first_wins_witness :
    (mdEq ⟨"F1", "m1", "First", none, "uuid-x", "1"⟩
        ⟨"F2", "m2", "Second", some "9", "uuid-x", "2"⟩ = true ↔
      ("uuid-x" : String) = "uuid-x") ∧
      (buildGraph ⟨"G", "m", "GustavDev", none, "uuid-base", "1"⟩
        [⟨⟨"F1", "m1", "First", none, "uuid-x", "1"⟩, []⟩,
          ⟨⟨"F2", "m2", "Second", some "9", "uuid-x", "2"⟩, []⟩]).resolve =
        .ok [⟨"F1", "m1", "First", none, "uuid-x", "1"⟩] :=
  uuid_identity_first_wins ⟨"F1", "m1", "First", none, "uuid-x", "1"⟩
    ⟨"F2", "m2", "Second", some "9", "uuid-x", "2"⟩
    ⟨"F1", "m1", "First", none, "uuid-x", "1"⟩
    ⟨"F2", "m2", "Second", some "9", "uuid-x", "2"⟩
    ⟨"G", "m", "GustavDev", none, "uuid-base", "1"⟩ (by decide) (by decide)

end Lsxwriter
